import Mathlib

/-
Verification of the LD2450 frame synchronizer / decoder / trail recorder
from mmwave_with_webserver.ino, as a shallow embedding.

Bytes are modelled as natural numbers; 16-bit raw fields are naturals
below 65536; the C int16_t narrowing cast is modelled by toInt16, a
wrap into [-32768, 32767].
-/

set_option maxRecDepth 100000

namespace SpectraFog

/-- The C cast (int16_t), twos-complement wrap of an integer into
[-32768, 32767]. -/
def toInt16 (z : Int) : Int := (z + 32768) % 65536 - 32768

/-- le_u16 from the sketch: p[0] | (p[1] << 8). -/
def le_u16 (a b : Nat) : Nat := a ||| (b <<< 8)

/-- X decoding: (xr & 0x8000) ? (int16_t)(xr - 32768) : (int16_t)(-(int32_t)xr). -/
def decodeX (xr : Nat) : Int :=
  if xr &&& 0x8000 ≠ 0 then toInt16 ((xr : Int) - 32768) else toInt16 (-(xr : Int))

/-- Y decoding: (int16_t)(yr - 32768). -/
def decodeY (yr : Nat) : Int := toInt16 ((yr : Int) - 32768)

/-- V decoding: (vr & 0x8000) ? (int16_t)(-(int32_t)(vr - 32768)) : (int16_t)vr. -/
def decodeV (vr : Nat) : Int :=
  if vr &&& 0x8000 ≠ 0 then toInt16 (-((vr : Int) - 32768)) else toInt16 (vr : Int)

/-- One Target slot: presence flag, decoded x, y, velocity, last-seen stamp. -/
structure Target where
  v : Bool
  x : Int
  y : Int
  vz : Int
  seen : Nat
deriving DecidableEq

/-- Decoding of one raw 16-bit triple into a Target record, per the body of
the per-target loop in parseFrames. -/
def decodeTriple (xr yr vr now : Nat) : Target :=
  { v := !(xr == 0 && yr == 0 && vr == 0)
    x := decodeX xr
    y := decodeY yr
    vz := decodeV vr
    seen := now }

/-- Sub-record k of a 30-byte frame sits at byte offset b = 4 + 8k. -/
def decodeOne (f : List Nat) (k now : Nat) : Target :=
  decodeTriple
    (le_u16 (f.getD (4 + k * 8) 0) (f.getD (4 + k * 8 + 1) 0))
    (le_u16 (f.getD (4 + k * 8 + 2) 0) (f.getD (4 + k * 8 + 3) 0))
    (le_u16 (f.getD (4 + k * 8 + 4) 0) (f.getD (4 + k * 8 + 5) 0))
    now

/-- The k = 0,1,2 loop writing all three Target Table slots. -/
def decodeTargets (f : List Nat) (now : Nat) : List Target :=
  (List.range 3).map (fun k => decodeOne f k now)

/-- The mutable state of the sketch that the synchronizer touches:
byte buffer, target table T[3], and the three counters. -/
structure RadarState where
  buf : List Nat
  T : List Target
  framesSeen : Nat
  framesOK : Nat
  errs : Nat
deriving DecidableEq

/-- Zero-initialised globals at boot. -/
def initState : RadarState :=
  { buf := []
    T := List.replicate 3 { v := false, x := 0, y := 0, vz := 0, seen := 0 }
    framesSeen := 0
    framesOK := 0
    errs := 0 }

/-- pushBytes: while (available && blen < 128) buf[blen++] = read().
The buffer takes at most 128 - blen new bytes; the rest of the input
is left unread. -/
def pushBytesL (buf input : List Nat) : List Nat := buf ++ input.take (128 - buf.length)

/-- pushBytes lifted to the whole state. -/
def pushBytes (s : RadarState) (input : List Nat) : RadarState :=
  { s with buf := pushBytesL s.buf input }

/-- Header test at offset i: buf[i..i+3] == {0xAA,0xFF,0x03,0x00}. -/
def isHdrAt (buf : List Nat) (i : Nat) : Bool :=
  buf.getD i 0 == 0xAA && buf.getD (i + 1) 0 == 0xFF &&
  buf.getD (i + 2) 0 == 0x03 && buf.getD (i + 3) 0 == 0x00

/-- The header scan: for (i = 0; i <= blen - 30; i++), first hit wins. -/
def findHdr (buf : List Nat) : Option Nat :=
  (List.range (buf.length - 29)).find? (fun i => isHdrAt buf i)

/-- Handling of one extracted 30-byte frame: framesSeen++, tail check,
then either errs++ (mismatch) or a full Target Table overwrite and
framesOK++ (match). The buffer itself is not touched here. -/
def processFrame (s : RadarState) (f : List Nat) (now : Nat) : RadarState :=
  let s1 : RadarState := { s with framesSeen := s.framesSeen + 1 }
  if f.getD 28 0 != 0x55 || f.getD 29 0 != 0xCC then { s1 with errs := s1.errs + 1 }
  else { s1 with T := decodeTargets f now, framesOK := s1.framesOK + 1 }

/-- The for(;;) loop of parseFrames, with an explicit fuel argument.
Each recursive call removes at least 30 bytes from the buffer, so any
fuel at least the buffer length computes the loop to exhaustion. -/
def parseFramesAux : Nat → RadarState → Nat → RadarState
  | 0, s, _ => s
  | fuel + 1, s, now =>
    if s.buf.length < 30 then s
    else
      match findHdr s.buf with
      | none => { s with buf := s.buf.drop (s.buf.length - 29) }
      | some h =>
        if s.buf.length < h + 30 then { s with buf := s.buf.drop h }
        else
          parseFramesAux fuel
            (processFrame { s with buf := s.buf.drop (h + 30) } ((s.buf.drop h).take 30) now) now

/-- One call of parseFrames: run the loop to exhaustion. -/
def parseFrames (s : RadarState) (now : Nat) : RadarState :=
  parseFramesAux s.buf.length s now

/-- A wire-valid frame: 30 bytes, header constant in front, tail constant at
bytes 28 and 29. -/
def validFrame (f : List Nat) : Prop :=
  f.length = 30 ∧ isHdrAt f 0 = true ∧ f.getD 28 0 = 0x55 ∧ f.getD 29 0 = 0xCC

instance (f : List Nat) : Decidable (validFrame f) := by
  unfold validFrame; exact inferInstance

/-- The operations the loop() task applies to the radar state. -/
inductive RadarOp where
  | intake : List Nat → RadarOp
  | sync : Nat → RadarOp

/-- Apply one operation. -/
def runOp (s : RadarState) : RadarOp → RadarState
  | RadarOp.intake bs => pushBytes s bs
  | RadarOp.sync now => parseFrames s now

/-- Apply a whole sequence of intake / synchronize operations. -/
def runOps (s : RadarState) (ops : List RadarOp) : RadarState := ops.foldl runOp s

/-- One Trail: struct Trail{int16_t X[100],Y[100];int head=0,n=0;...}. -/
structure TrailState where
  Xs : List Int
  Ys : List Int
  head : Nat
  n : Nat
deriving DecidableEq

/-- Zero-initialised trail. -/
def trailInit : TrailState :=
  { Xs := List.replicate 100 0, Ys := List.replicate 100 0, head := 0, n := 0 }

/-- One trail sample: X[head]=x; Y[head]=y; head=(head+1)%100; if(n<100) n++. -/
def pushTrail (t : TrailState) (x y : Int) : TrailState :=
  { Xs := t.Xs.set t.head x
    Ys := t.Ys.set t.head y
    head := (t.head + 1) % 100
    n := if t.n < 100 then t.n + 1 else t.n }

/-- The snapshot page() hands to the canvas renderer: for j in [0, n),
it reads index (head + j) % 100. -/
def pageTrailSnapshot (t : TrailState) : List (Int × Int) :=
  (List.range t.n).map (fun j =>
    (t.Xs.getD ((t.head + j) % 100) 0, t.Ys.getD ((t.head + j) % 100) 0))

/-- A concrete wire-valid frame with all-zero payload. -/
def F0 : List Nat := [0xAA, 0xFF, 0x03, 0x00] ++ List.replicate 24 0 ++ [0x55, 0xCC]

/-- F0 with its final tail byte corrupted. -/
def badTailFrame : List Nat := [0xAA, 0xFF, 0x03, 0x00] ++ List.replicate 24 0 ++ [0x55, 0x00]

/-- A 33-byte buffer: 27 garbage bytes, then the header, then 2 more bytes —
a header with only 6 bytes available from its offset. -/
def C7buf : List Nat := List.replicate 27 1 ++ [0xAA, 0xFF, 0x03, 0x00, 0x00, 0x00]

/-- A state whose buffer already holds 120 bytes, 8 short of capacity. -/
def nearFullState : RadarState := { initState with buf := List.replicate 120 2 }

/-- Claim C9 counterexample: the decoder maps raw 0x8005 to 5, not to
5 - 32768 = -32763 as the claim computes. -/
theorem c9_counterexample : decodeX 0x8005 = 5 ∧ decodeX 0x8005 ≠ -32763 := by
  decide

/-- Claim C9 (amended): x_raw = 0x8005 decodes to 0x8005 - 32768 = 5 (the
offset applies to the full raw value, not its low bits); 0x8000 decodes
to 0; 0x0005 decodes to -5. -/
theorem c9_amended : decodeX 0x8005 = 5 ∧ decodeX 0x8000 = 0 ∧ decodeX 0x0005 = -5 := by
  decide

/-- Claim C4: the page snapshot is wrong below capacity. After a single
sample (7, 9) into an empty trail the stored oldest entry sits at index
(head - count) mod 100 = 0 and holds (7, 9), but the snapshot handed to
the renderer reads index (head + 0) mod 100 = 1 and yields the unwritten
slot (0, 0). -/
theorem c4_snapshot_bug :
    pageTrailSnapshot (pushTrail trailInit 7 9) = [(0, 0)]
    ∧ ((pushTrail trailInit 7 9).Xs.getD
        (((pushTrail trailInit 7 9).head + 100 - (pushTrail trailInit 7 9).n) % 100) 0,
       (pushTrail trailInit 7 9).Ys.getD
        (((pushTrail trailInit 7 9).head + 100 - (pushTrail trailInit 7 9).n) % 100) 0)
      = ((7 : Int), (9 : Int))
    ∧ ((0 : Int), (0 : Int)) ≠ ((7 : Int), (9 : Int)) := by
  decide

/-- Claim C6 counterexample: with a full 128-byte buffer, an arriving byte 1
is not retained — the buffer is left unchanged and the oldest bytes are
not discarded. -/
theorem c6_counterexample :
    pushBytesL (List.replicate 128 0) [1] = List.replicate 128 0
    ∧ (1 : Nat) ∉ pushBytesL (List.replicate 128 0) [1] := by
  decide

/-- High-bit test, arithmetically: for a 16-bit value, n and 0x8000 is zero
exactly when n is below 0x8000. -/
theorem and_high_bit (n : Nat) (h2 : n < 65536) : n &&& 32768 = 0 ↔ n < 32768 := by
  have h3 : n &&& 32768 = (n.testBit 15).toNat * 32768 := by
    have h := Nat.and_two_pow n 15
    norm_num at h
    exact h
  have h4 : n.testBit 15 = decide (n / 32768 % 2 = 1) := by
    have h : n.testBit 15 = decide (n / 2 ^ 15 % 2 = 1) := Nat.testBit_to_div_mod
    norm_num at h
    exact h
  cases hb : n.testBit 15 with
  | false =>
    have h5 : ¬ (n / 32768 % 2 = 1) := of_decide_eq_false (h4.symm.trans hb)
    rw [hb] at h3
    simp only [Bool.toNat_false, Nat.zero_mul] at h3
    rw [h3]
    constructor
    · intro _; omega
    · intro _; rfl
  | true =>
    have h5 : n / 32768 % 2 = 1 := of_decide_eq_true (h4.symm.trans hb)
    rw [hb] at h3
    simp only [Bool.toNat_true, Nat.one_mul] at h3
    rw [h3]
    constructor
    · intro h; omega
    · intro h; omega

/-- The high bit is set when the value is at least 0x8000. -/
theorem and_high_bit_ne (n : Nat) (h2 : n < 65536) (h3 : 32768 ≤ n) : n &&& 32768 ≠ 0 :=
  fun hc => by have := (and_high_bit n h2).mp hc; omega

/-- The high bit is clear when the value is below 0x8000. -/
theorem and_high_bit_eq (n : Nat) (h2 : n < 65536) (h3 : n < 32768) : n &&& 32768 = 0 :=
  (and_high_bit n h2).mpr h3

/-- toInt16 is the identity on the int16 range. -/
theorem toInt16_eq (z : Int) (h1 : -32768 ≤ z) (h2 : z ≤ 32767) : toInt16 z = z := by
  unfold toInt16; omega

/-- Claim C1: for every 16-bit raw triple, x is raw - 32768 when the high bit
is set and the negated raw magnitude when clear, y is always raw - 32768,
v is -(raw - 32768) when the high bit is set and raw unchanged when clear,
and the presence flag is false exactly when all three raw fields are zero. -/
theorem c1_decode_exact (xr yr vr now : Nat) (hx : xr < 65536) (hy : yr < 65536)
    (hv2 : vr < 65536) :
    ((32768 ≤ xr → (decodeTriple xr yr vr now).x = (xr : Int) - 32768)
      ∧ (xr < 32768 → (decodeTriple xr yr vr now).x = -(xr : Int)))
    ∧ (decodeTriple xr yr vr now).y = (yr : Int) - 32768
    ∧ ((32768 ≤ vr → (decodeTriple xr yr vr now).vz = -((vr : Int) - 32768))
      ∧ (vr < 32768 → (decodeTriple xr yr vr now).vz = (vr : Int)))
    ∧ ((decodeTriple xr yr vr now).v = false ↔ (xr = 0 ∧ yr = 0 ∧ vr = 0)) := by
  refine ⟨⟨?_, ?_⟩, ?_, ⟨?_, ?_⟩, ?_⟩
  · intro h
    show decodeX xr = (xr : Int) - 32768
    unfold decodeX
    rw [if_pos (and_high_bit_ne xr hx h)]
    exact toInt16_eq _ (by omega) (by omega)
  · intro h
    show decodeX xr = -(xr : Int)
    unfold decodeX
    rw [if_neg (by simpa using and_high_bit_eq xr hx h)]
    exact toInt16_eq _ (by omega) (by omega)
  · show decodeY yr = (yr : Int) - 32768
    unfold decodeY
    exact toInt16_eq _ (by omega) (by omega)
  · intro h
    show decodeV vr = -((vr : Int) - 32768)
    unfold decodeV
    rw [if_pos (and_high_bit_ne vr hv2 h)]
    exact toInt16_eq _ (by omega) (by omega)
  · intro h
    show decodeV vr = (vr : Int)
    unfold decodeV
    rw [if_neg (by simpa using and_high_bit_eq vr hv2 h)]
    exact toInt16_eq _ (by omega) (by omega)
  · show (!(xr == 0 && yr == 0 && vr == 0)) = false ↔ (xr = 0 ∧ yr = 0 ∧ vr = 0)
    simp [and_assoc]

/-- Witness for C1 at xr = 40000 (high bit set), yr = 123, vr = 33000. -/
theorem c1_witness :
    (decodeTriple 40000 123 33000 9).x = ((40000 : Nat) : Int) - 32768
    ∧ (decodeTriple 40000 123 33000 9).y = ((123 : Nat) : Int) - 32768
    ∧ (decodeTriple 40000 123 33000 9).vz = -(((33000 : Nat) : Int) - 32768) := by
  have h := c1_decode_exact 40000 123 33000 9 (by decide) (by decide) (by decide)
  exact ⟨h.1.1 (by decide), h.2.1, h.2.2.1.1 (by decide)⟩

/-- Claim C10: decoded x lies in [-32767, 32767], y in [-32768, 32767] and
v in [-32767, 32767], and each int16 narrowing cast is value-preserving:
the decode with the cast equals the plain intermediate arithmetic. -/
theorem c10_no_wrap (xr yr vr : Nat) (hx : xr < 65536) (hy : yr < 65536) (hv2 : vr < 65536) :
    (-32767 ≤ decodeX xr ∧ decodeX xr ≤ 32767)
    ∧ (-32768 ≤ decodeY yr ∧ decodeY yr ≤ 32767)
    ∧ (-32767 ≤ decodeV vr ∧ decodeV vr ≤ 32767)
    ∧ decodeX xr = (if xr &&& 0x8000 ≠ 0 then (xr : Int) - 32768 else -(xr : Int))
    ∧ decodeY yr = (yr : Int) - 32768
    ∧ decodeV vr = (if vr &&& 0x8000 ≠ 0 then -((vr : Int) - 32768) else (vr : Int)) := by
  unfold decodeX decodeY decodeV toInt16
  rcases Nat.lt_or_ge xr 32768 with hx1 | hx1 <;>
    rcases Nat.lt_or_ge vr 32768 with hv1 | hv1
  · simp only [ne_eq, and_high_bit_eq xr hx hx1, and_high_bit_eq vr hv2 hv1,
      eq_self_iff_true, not_true_eq_false, not_false_eq_true, if_true, if_false]
    omega
  · simp only [ne_eq, and_high_bit_eq xr hx hx1, and_high_bit_ne vr hv2 hv1,
      eq_self_iff_true, not_true_eq_false, not_false_eq_true, if_true, if_false]
    omega
  · simp only [ne_eq, and_high_bit_ne xr hx hx1, and_high_bit_eq vr hv2 hv1,
      eq_self_iff_true, not_true_eq_false, not_false_eq_true, if_true, if_false]
    omega
  · simp only [ne_eq, and_high_bit_ne xr hx hx1, and_high_bit_ne vr hv2 hv1,
      eq_self_iff_true, not_true_eq_false, not_false_eq_true, if_true, if_false]
    omega

/-- Witness for C10 at xr = 40000, yr = 123, vr = 33000. -/
theorem c10_witness :
    (-32767 ≤ decodeX 40000 ∧ decodeX 40000 ≤ 32767)
    ∧ (-32768 ≤ decodeY 123 ∧ decodeY 123 ≤ 32767)
    ∧ (-32767 ≤ decodeV 33000 ∧ decodeV 33000 ≤ 32767)
    ∧ decodeX 40000
      = (if (40000 : Nat) &&& 0x8000 ≠ 0 then ((40000 : Nat) : Int) - 32768
          else -((40000 : Nat) : Int))
    ∧ decodeY 123 = ((123 : Nat) : Int) - 32768
    ∧ decodeV 33000
      = (if (33000 : Nat) &&& 0x8000 ≠ 0 then -(((33000 : Nat) : Int) - 32768)
          else ((33000 : Nat) : Int)) :=
  c10_no_wrap 40000 123 33000 (by decide) (by decide) (by decide)

/-- Claim C2: a 30-byte frame whose tail bytes do not both match the tail
constant bumps framesSeen and errs by one and changes nothing else: the
Target Table and framesOK are left exactly as they were. -/
theorem c2_tail_mismatch (s : RadarState) (f : List Nat) (now : Nat) (hlen : f.length = 30)
    (hbad : ¬ (f.getD 28 0 = 0x55 ∧ f.getD 29 0 = 0xCC)) :
    processFrame s f now = { s with framesSeen := s.framesSeen + 1, errs := s.errs + 1 }
    ∧ (processFrame s f now).T = s.T
    ∧ (processFrame s f now).framesOK = s.framesOK := by
  have hcond : (f.getD 28 0 != 0x55 || f.getD 29 0 != 0xCC) = true := by
    rw [Bool.or_eq_true, bne_iff_ne, bne_iff_ne]
    exact not_and_or.mp hbad
  have h1 : processFrame s f now
      = { s with framesSeen := s.framesSeen + 1, errs := s.errs + 1 } := by
    unfold processFrame
    simp only [hcond, if_true]
  exact ⟨h1, by rw [h1], by rw [h1]⟩

/-- Witness for C2: a concrete frame with a corrupted final tail byte. -/
theorem c2_witness :
    processFrame initState badTailFrame 7 = { initState with framesSeen := 1, errs := 1 }
    ∧ (processFrame initState badTailFrame 7).T = initState.T
    ∧ (processFrame initState badTailFrame 7).framesOK = initState.framesOK :=
  c2_tail_mismatch initState badTailFrame 7 (by decide) (by decide)

/-- Unfolding of the loop at zero fuel. -/
theorem parseFramesAux_zero (s : RadarState) (now : Nat) : parseFramesAux 0 s now = s := rfl

/-- One unfolding of the loop body. -/
theorem parseFramesAux_succ (fuel : Nat) (s : RadarState) (now : Nat) :
    parseFramesAux (fuel + 1) s now =
      (if s.buf.length < 30 then s
       else
        match findHdr s.buf with
        | none => { s with buf := s.buf.drop (s.buf.length - 29) }
        | some h =>
          if s.buf.length < h + 30 then { s with buf := s.buf.drop h }
          else
            parseFramesAux fuel
              (processFrame { s with buf := s.buf.drop (h + 30) } ((s.buf.drop h).take 30) now)
              now) := rfl

/-- processFrame never touches the byte buffer. -/
theorem processFrame_buf (s : RadarState) (f : List Nat) (now : Nat) :
    (processFrame s f now).buf = s.buf := by
  unfold processFrame
  split <;> rfl

/-- processFrame treats the buffer field as inert data. -/
theorem processFrame_setBuf (s : RadarState) (b f : List Nat) (now : Nat) :
    processFrame { s with buf := b } f now = { processFrame s f now with buf := b } := by
  unfold processFrame
  split <;> rfl

/-- A frame with the correct tail bytes is accepted: framesOK goes up by one
and the Target Table is overwritten from the frame. -/
theorem processFrame_accept (s : RadarState) (f : List Nat) (now : Nat)
    (h28 : f.getD 28 0 = 0x55) (h29 : f.getD 29 0 = 0xCC) :
    processFrame s f now =
      { s with framesSeen := s.framesSeen + 1, T := decodeTargets f now,
               framesOK := s.framesOK + 1 } := by
  unfold processFrame
  have hcond : (f.getD 28 0 != 0x55 || f.getD 29 0 != 0xCC) = false := by
    rw [Bool.or_eq_false_iff, bne_eq_false_iff_eq, bne_eq_false_iff_eq]
    exact ⟨h28, h29⟩
  simp only [hcond, Bool.false_eq_true, if_false]

/-- The loop result does not depend on the fuel, once the fuel covers the
buffer length. -/
theorem parseFramesAux_congr :
    ∀ (n m : Nat) (s : RadarState) (now : Nat), s.buf.length ≤ n → s.buf.length ≤ m →
      parseFramesAux n s now = parseFramesAux m s now := by
  intro n
  induction n with
  | zero =>
    intro m s now hn _
    have h0 : s.buf.length = 0 := Nat.le_zero.mp hn
    cases m with
    | zero => rfl
    | succ m2 =>
      rw [parseFramesAux_zero, parseFramesAux_succ, if_pos (by omega)]
  | succ n2 ih =>
    intro m s now hn hm
    cases m with
    | zero =>
      have h0 : s.buf.length = 0 := Nat.le_zero.mp hm
      rw [parseFramesAux_zero, parseFramesAux_succ, if_pos (by omega)]
    | succ m2 =>
      rw [parseFramesAux_succ, parseFramesAux_succ]
      by_cases h30 : s.buf.length < 30
      · rw [if_pos h30, if_pos h30]
      · rw [if_neg h30, if_neg h30]
        cases hfind : findHdr s.buf with
        | none => rfl
        | some h =>
          dsimp only
          by_cases hpart : s.buf.length < h + 30
          · rw [if_pos hpart, if_pos hpart]
          · rw [if_neg hpart, if_neg hpart]
            apply ih
            · rw [processFrame_buf]
              simp only [List.length_drop]
              omega
            · rw [processFrame_buf]
              simp only [List.length_drop]
              omega

/-- With fewer than 30 buffered bytes a synchronize pass does nothing. -/
theorem parseFrames_small (s : RadarState) (now : Nat) (h : s.buf.length < 30) :
    parseFrames s now = s := by
  unfold parseFrames
  cases hl : s.buf.length with
  | zero => rw [parseFramesAux_zero]
  | succ k =>
    rw [parseFramesAux_succ, if_pos (by omega)]

/-- The loop never grows the buffer. -/
theorem parseFramesAux_len :
    ∀ (fuel : Nat) (s : RadarState) (now : Nat),
      (parseFramesAux fuel s now).buf.length ≤ s.buf.length := by
  intro fuel
  induction fuel with
  | zero => intro s now; rw [parseFramesAux_zero]
  | succ n2 ih =>
    intro s now
    rw [parseFramesAux_succ]
    by_cases h30 : s.buf.length < 30
    · rw [if_pos h30]
    · rw [if_neg h30]
      cases hfind : findHdr s.buf with
      | none =>
        simp only [List.length_drop]
        omega
      | some h =>
        dsimp only
        by_cases hpart : s.buf.length < h + 30
        · rw [if_pos hpart]
          simp only [List.length_drop]
          omega
        · rw [if_neg hpart]
          refine le_trans (ih _ _) ?_
          rw [processFrame_buf]
          simp only [List.length_drop]
          omega

/-- A synchronize pass never grows the buffer. -/
theorem parseFrames_len (s : RadarState) (now : Nat) :
    (parseFrames s now).buf.length ≤ s.buf.length :=
  parseFramesAux_len s.buf.length s now

/-- Intake keeps the buffer within its 128-byte capacity. -/
theorem pushBytes_len (s : RadarState) (input : List Nat) (h : s.buf.length ≤ 128) :
    (pushBytes s input).buf.length ≤ 128 := by
  simp only [pushBytes, pushBytesL, List.length_append, List.length_take]
  omega

/-- Claim C3: over any sequence of intake and synchronize operations the
buffer length stays at most the 128-byte capacity (it is a natural number,
hence never below 0). -/
theorem c3_buffer_bound (s : RadarState) (ops : List RadarOp) (h : s.buf.length ≤ 128) :
    (runOps s ops).buf.length ≤ 128 := by
  induction ops generalizing s with
  | nil => exact h
  | cons op ops2 ih =>
    cases op with
    | intake bs => exact ih _ (pushBytes_len s bs h)
    | sync now => exact ih _ (le_trans (parseFrames_len s now) h)

/-- Witness for C3: a concrete operation sequence from the boot state. -/
theorem c3_witness :
    (runOps initState
      [RadarOp.intake (List.replicate 200 7), RadarOp.sync 0,
       RadarOp.intake [1, 2, 3], RadarOp.sync 1]).buf.length ≤ 128 :=
  c3_buffer_bound initState
    [RadarOp.intake (List.replicate 200 7), RadarOp.sync 0,
     RadarOp.intake [1, 2, 3], RadarOp.sync 1] (by decide)

/-- getD looks into the left part of an append below its length. -/
theorem getD_append_left (l r : List Nat) (n d : Nat) (h : n < l.length) :
    (l ++ r).getD n d = l.getD n d := by
  rw [List.getD_eq_getElem?_getD, List.getD_eq_getElem?_getD, List.getElem?_append, if_pos h]

/-- getD after a drop reads the shifted index. -/
theorem getD_dropAt (l : List Nat) (i j d : Nat) :
    (l.drop i).getD j d = l.getD (i + j) d := by
  rw [List.getD_eq_getElem?_getD, List.getD_eq_getElem?_getD, List.getElem?_drop]

/-- The header test at offset 0 only looks at the first list of an append
when that list holds at least the 4 header bytes. -/
theorem isHdrAt_append_left (f r : List Nat) (h4 : 4 ≤ f.length) :
    isHdrAt (f ++ r) 0 = isHdrAt f 0 := by
  unfold isHdrAt
  rw [getD_append_left f r 0 0 (by omega), getD_append_left f r (0 + 1) 0 (by omega),
    getD_append_left f r (0 + 2) 0 (by omega), getD_append_left f r (0 + 3) 0 (by omega)]

/-- When the header sits at offset 0 of a buffer of at least 30 bytes, the
scan finds it there. -/
theorem findHdr_zero (buf : List Nat) (h30 : 30 ≤ buf.length) (hhdr : isHdrAt buf 0 = true) :
    findHdr buf = some 0 := by
  unfold findHdr
  obtain ⟨m, hm⟩ : ∃ m, buf.length - 29 = m + 1 := ⟨buf.length - 30, by omega⟩
  rw [hm, List.range_succ_eq_map]
  exact List.find?_cons_of_pos _ hhdr

/-- Back-to-back frames, each 30 bytes with the header in front, are
consumed one after the other, in input order: one synchronize pass on
their concatenation folds processFrame over them from the left and
empties the buffer. -/
theorem parseFrames_join (now : Nat) :
    ∀ (frames : List (List Nat)) (s : RadarState),
      (∀ f ∈ frames, f.length = 30 ∧ isHdrAt f 0 = true) →
      parseFrames { s with buf := frames.flatten } now
        = { frames.foldl (fun t f => processFrame t f now) s with buf := [] } := by
  intro frames
  induction frames with
  | nil =>
    intro s _
    exact parseFrames_small _ _ (by show ([] : List Nat).length < 30; decide)
  | cons f fs ih =>
    intro s hv
    obtain ⟨hf30, hfhdr⟩ := hv f (List.mem_cons_self f fs)
    have hvfs : ∀ g ∈ fs, g.length = 30 ∧ isHdrAt g 0 = true :=
      fun g hg => hv g (List.mem_cons_of_mem f hg)
    have hlen2 : (f ++ fs.flatten).length = (fs.flatten.length + 29) + 1 := by
      rw [List.length_append, hf30]; omega
    have hcond : ¬ ((f ++ fs.flatten).length < 30) := by
      rw [List.length_append, hf30]; omega
    have hfind : findHdr (f ++ fs.flatten) = some 0 := by
      apply findHdr_zero
      · rw [List.length_append, hf30]; omega
      · rw [isHdrAt_append_left f fs.flatten (by rw [hf30]; omega)]
        exact hfhdr
    show parseFramesAux (f ++ fs.flatten).length { s with buf := f ++ fs.flatten } now = _
    rw [hlen2, parseFramesAux_succ]
    dsimp only
    rw [if_neg hcond, hfind]
    dsimp only
    rw [if_neg (by rw [List.length_append, hf30]; omega), List.drop_zero,
      List.take_left' hf30, List.drop_left' hf30, processFrame_setBuf]
    have hstep : parseFramesAux (fs.flatten.length + 29) { processFrame s f now with buf := fs.flatten } now
        = parseFrames { processFrame s f now with buf := fs.flatten } now := by
      unfold parseFrames
      apply parseFramesAux_congr
      · show fs.flatten.length ≤ fs.flatten.length + 29
        omega
      · show fs.flatten.length ≤ fs.flatten.length
        omega
    rw [hstep, ih (processFrame s f now) hvfs]
    rfl

/-- Folding accepted frames adds their count to framesOK. -/
theorem foldl_framesOK :
    ∀ (frames : List (List Nat)) (s : RadarState) (now : Nat),
      (∀ f ∈ frames, validFrame f) →
      (frames.foldl (fun t f => processFrame t f now) s).framesOK
        = s.framesOK + frames.length := by
  intro frames
  induction frames with
  | nil => intro s now _; simp
  | cons f fs ih =>
    intro s now hv
    have hf := hv f (List.mem_cons_self f fs)
    show (fs.foldl (fun t f => processFrame t f now) (processFrame s f now)).framesOK = _
    rw [ih (processFrame s f now) now (fun g hg => hv g (List.mem_cons_of_mem f hg)),
      processFrame_accept s f now hf.2.2.1 hf.2.2.2]
    show s.framesOK + 1 + fs.length = s.framesOK + (f :: fs).length
    rw [List.length_cons]
    omega

/-- Claim C5 counterexample: five valid frames fed back-to-back through
intake and one synchronize pass yield framesOK = 4, not 5 — the 128-byte
buffer takes only the first four frames plus 8 bytes. -/
theorem c5_counterexample :
    (parseFrames (pushBytes initState ((List.replicate 5 F0).flatten)) 0).framesOK = 4
    ∧ (4 : Nat) ≠ 5 := by
  constructor
  · decide
  · decide

/-- Claim C5 (amended): for every batch of valid frames whose total length
fits the 128-byte intake capacity (at most 4 frames), feeding them
back-to-back and running one synchronize pass accepts all of them and
decodes them in input order — the final state is the left fold of the
per-frame decode over the batch, with framesOK increased by the count. -/
theorem c5_inorder_amended (s : RadarState) (now : Nat) (frames : List (List Nat))
    (hbuf : s.buf = []) (hv : ∀ f ∈ frames, validFrame f)
    (hcap : frames.flatten.length ≤ 128) :
    parseFrames (pushBytes s frames.flatten) now
      = { frames.foldl (fun t f => processFrame t f now) s with buf := [] }
    ∧ (parseFrames (pushBytes s frames.flatten) now).framesOK = s.framesOK + frames.length := by
  have hpush : pushBytes s frames.flatten = { s with buf := frames.flatten } := by
    unfold pushBytes pushBytesL
    rw [hbuf]
    simp only [List.nil_append, List.length_nil, Nat.sub_zero]
    rw [List.take_of_length_le hcap]
  have hmain := parseFrames_join now frames s (fun f hf => ⟨(hv f hf).1, (hv f hf).2.1⟩)
  rw [hpush]
  refine ⟨hmain, ?_⟩
  rw [hmain]
  show (frames.foldl (fun t f => processFrame t f now) s).framesOK = s.framesOK + frames.length
  exact foldl_framesOK frames s now hv

/-- Witness for C5 at one concrete valid frame. -/
theorem c5_witness :
    parseFrames (pushBytes initState ([F0].flatten)) 3
      = { processFrame initState F0 3 with buf := [] }
    ∧ (parseFrames (pushBytes initState ([F0].flatten)) 3).framesOK
      = initState.framesOK + 1 := by
  have h := c5_inorder_amended initState 3 [F0] rfl (by decide) (by decide)
  exact ⟨h.1, h.2⟩

/-- Claim C8: splitting one valid frame across two intake calls, with a
synchronize pass after each, accepts exactly one frame and ends in the
same state as delivering the whole frame in a single intake call. -/
theorem c8_split_equiv (s : RadarState) (now : Nat) (f : List Nat) (k : Nat)
    (hbuf : s.buf = []) (hf : validFrame f) (hk : k ≤ 30) :
    parseFrames (pushBytes (parseFrames (pushBytes s (f.take k)) now) (f.drop k)) now
      = parseFrames (pushBytes s f) now
    ∧ (parseFrames (pushBytes s f) now).framesOK = s.framesOK + 1
    ∧ (parseFrames (pushBytes s f) now).buf = [] := by
  obtain ⟨hf30, hfhdr, h28, h29⟩ := hf
  have hpushf : pushBytes s f = { s with buf := f } := by
    unfold pushBytes pushBytesL
    rw [hbuf]
    simp only [List.nil_append, List.length_nil, Nat.sub_zero]
    rw [List.take_of_length_le (by rw [hf30]; omega)]
  have hone2 : parseFrames { s with buf := f } now = { processFrame s f now with buf := [] } := by
    have hj := parseFrames_join now [f] s (by
      intro g hg
      rw [List.mem_singleton] at hg
      rw [hg]
      exact ⟨hf30, hfhdr⟩)
    rw [show ([f] : List (List Nat)).flatten = f ++ [] from rfl, List.append_nil] at hj
    exact hj
  have hOK : (parseFrames (pushBytes s f) now).framesOK = s.framesOK + 1 := by
    rw [hpushf, hone2]
    show (processFrame s f now).framesOK = s.framesOK + 1
    rw [processFrame_accept s f now h28 h29]
  have hbufe : (parseFrames (pushBytes s f) now).buf = [] := by
    rw [hpushf, hone2]
  refine ⟨?_, hOK, hbufe⟩
  by_cases hk30 : k < 30
  · have htake : (f.take k).length = k := by
      rw [List.length_take, hf30]; omega
    have hpush1 : pushBytes s (f.take k) = { s with buf := f.take k } := by
      unfold pushBytes pushBytesL
      rw [hbuf]
      simp only [List.nil_append, List.length_nil, Nat.sub_zero]
      rw [List.take_of_length_le (by rw [htake]; omega)]
    have hsmall : parseFrames { s with buf := f.take k } now = { s with buf := f.take k } := by
      apply parseFrames_small
      show (f.take k).length < 30
      rw [htake]; omega
    have hpush2 : pushBytes { s with buf := f.take k } (f.drop k) = { s with buf := f } := by
      unfold pushBytes pushBytesL
      dsimp only
      have hrest : f.take k ++ (f.drop k).take (128 - (f.take k).length) = f := by
        have hdl : (f.drop k).length ≤ 128 - (f.take k).length := by
          rw [List.length_drop, htake, hf30]
          omega
        rw [List.take_of_length_le hdl]
        exact List.take_append_drop k f
      rw [hrest]
    rw [hpush1, hsmall, hpush2, hpushf]
  · have hk2 : k = 30 := by omega
    subst hk2
    have htake : f.take 30 = f := by
      rw [← hf30]
      exact List.take_length f
    have hdrop : f.drop 30 = [] := by
      rw [← hf30]
      exact List.drop_length f
    rw [htake, hdrop, hpushf, hone2]
    have hempty : pushBytes { processFrame s f now with buf := [] } []
        = { processFrame s f now with buf := [] } := rfl
    rw [hempty]
    exact parseFrames_small _ _ (by show ([] : List Nat).length < 30; decide)

/-- Witness for C8: the concrete frame F0 split at byte 15. -/
theorem c8_witness :
    parseFrames (pushBytes (parseFrames (pushBytes initState (F0.take 15)) 4) (F0.drop 15)) 4
      = parseFrames (pushBytes initState F0) 4
    ∧ (parseFrames (pushBytes initState F0) 4).framesOK = initState.framesOK + 1
    ∧ (parseFrames (pushBytes initState F0) 4).buf = [] :=
  c8_split_equiv initState 4 F0 15 rfl (by decide) (by decide)

/-- Claim C7 counterexample: C7buf is a 33-byte buffer whose only header
starts at offset 27 with fewer than 30 bytes available. The claim says the
pass discards exactly the 27 bytes before the header; the code discards
only 33 - 29 = 4 bytes. -/
theorem c7_counterexample :
    (parseFrames { initState with buf := C7buf } 0).buf = C7buf.drop 4
    ∧ C7buf.drop 4 ≠ C7buf.drop 27
    ∧ C7buf.length = 33
    ∧ isHdrAt C7buf 27 = true
    ∧ findHdr C7buf = none := by
  refine ⟨by decide, by decide, by decide, by decide, by decide⟩

/-- Claim C7 (amended): when the buffer (at least 30 bytes) holds a header
only at offset h with fewer than 30 bytes available from h, the scan does
not see it (it only scans offsets up to length - 30), so the pass discards
exactly length - 29 bytes — at most h, not exactly h. The header candidate
survives, at offset h - (length - 29) of the kept suffix rather than at
the front. -/
theorem c7_amended (s : RadarState) (now h : Nat) (h30 : 30 ≤ s.buf.length)
    (hpart : s.buf.length < h + 30) (hhdr : isHdrAt s.buf h = true)
    (hearly : ∀ i, i < h → isHdrAt s.buf i = false) :
    parseFrames s now = { s with buf := s.buf.drop (s.buf.length - 29) }
    ∧ s.buf.length - 29 ≤ h
    ∧ isHdrAt (parseFrames s now).buf (h - (s.buf.length - 29)) = true := by
  have hdrople : s.buf.length - 29 ≤ h := by omega
  have hnone : findHdr s.buf = none := by
    unfold findHdr
    rw [List.find?_eq_none]
    intro i hi
    rw [List.mem_range] at hi
    have hih : i < h := by omega
    simp [hearly i hih]
  have hrun : parseFrames s now = { s with buf := s.buf.drop (s.buf.length - 29) } := by
    unfold parseFrames
    obtain ⟨m, hm⟩ : ∃ m, s.buf.length = m + 1 := ⟨s.buf.length - 1, by omega⟩
    rw [hm, parseFramesAux_succ, if_neg (by omega), hnone, ← hm]
  refine ⟨hrun, hdrople, ?_⟩
  rw [hrun]
  show isHdrAt (s.buf.drop (s.buf.length - 29)) (h - (s.buf.length - 29)) = true
  unfold isHdrAt at hhdr ⊢
  rw [getD_dropAt, getD_dropAt, getD_dropAt, getD_dropAt]
  have e0 : s.buf.length - 29 + (h - (s.buf.length - 29)) = h := by omega
  have e1 : s.buf.length - 29 + (h - (s.buf.length - 29) + 1) = h + 1 := by omega
  have e2 : s.buf.length - 29 + (h - (s.buf.length - 29) + 2) = h + 2 := by omega
  have e3 : s.buf.length - 29 + (h - (s.buf.length - 29) + 3) = h + 3 := by omega
  rw [e0, e1, e2, e3]
  exact hhdr

/-- Witness for C7 on the concrete buffer C7buf with h = 27. -/
theorem c7_witness :
    parseFrames { initState with buf := C7buf } 0
      = { initState with buf := C7buf.drop (C7buf.length - 29) }
    ∧ C7buf.length - 29 ≤ 27
    ∧ isHdrAt (parseFrames { initState with buf := C7buf } 0).buf
        (27 - (C7buf.length - 29)) = true :=
  c7_amended { initState with buf := C7buf } 0 27 (by decide) (by decide) (by decide)
    (by decide)

/-- Claim C6 (amended): when intake would exceed the 128-byte capacity, the
newest incoming bytes are the ones dropped (left unread); every already
buffered byte is retained in place, and the buffer fills to
min 128 (old length + input length). -/
theorem c6_amended (s : RadarState) (input : List Nat) (h : s.buf.length ≤ 128) :
    (pushBytes s input).buf = s.buf ++ input.take (128 - s.buf.length)
    ∧ (pushBytes s input).buf.length = min 128 (s.buf.length + input.length)
    ∧ (pushBytes s input).buf.take s.buf.length = s.buf := by
  refine ⟨rfl, ?_, ?_⟩
  · show (s.buf ++ input.take (128 - s.buf.length)).length = min 128 (s.buf.length + input.length)
    rw [List.length_append, List.length_take]
    omega
  · show (s.buf ++ input.take (128 - s.buf.length)).take s.buf.length = s.buf
    exact List.take_left s.buf (input.take (128 - s.buf.length))

/-- Witness for C6 on an overflowing intake: a 120-byte buffer receives 10
bytes; only the first 8 are admitted, the newest 2 are dropped. -/
theorem c6_witness :
    (pushBytes nearFullState [3, 4, 5, 6, 7, 8, 9, 10, 11, 12]).buf
      = nearFullState.buf ++ [3, 4, 5, 6, 7, 8, 9, 10, 11, 12].take (128 - nearFullState.buf.length)
    ∧ (pushBytes nearFullState [3, 4, 5, 6, 7, 8, 9, 10, 11, 12]).buf.length
      = min 128 (nearFullState.buf.length + [3, 4, 5, 6, 7, 8, 9, 10, 11, 12].length)
    ∧ (pushBytes nearFullState [3, 4, 5, 6, 7, 8, 9, 10, 11, 12]).buf.take nearFullState.buf.length
      = nearFullState.buf :=
  c6_amended nearFullState [3, 4, 5, 6, 7, 8, 9, 10, 11, 12] (by decide)

end SpectraFog
